import Mathlib

/-!
Verification of the lean-mcp repository: a shallow embedding of the
MCP filesystem tool server (`server.py`) and of the OpenAI-driven
orchestration client (`ai_client.py`), together with proofs settling the
frozen behavioural claims about them.

The filesystem is modelled as an association list from component paths
(`List String`) to entries (file with content, or directory); Python
exceptions become an explicit `PyExc` type, and the server's centralized
error handler `handle_file_operation` maps an `Except PyExc String`
outcome to the user-visible result string exactly as the Python code does.
-/

/-! ### Generic association lists (Python `dict` / flat filesystem store) -/

def alookup {κ β : Type} [DecidableEq κ] : List (κ × β) → κ → Option β
  | [], _ => none
  | (k, v) :: rest, q => if k = q then some v else alookup rest q

def aset {κ β : Type} [DecidableEq κ] : List (κ × β) → κ → β → List (κ × β)
  | [], k, v => [(k, v)]
  | (k', v') :: rest, k, v => if k' = k then (k, v) :: rest else (k', v') :: aset rest k v

def aerase {κ β : Type} [DecidableEq κ] (l : List (κ × β)) (k : κ) : List (κ × β) :=
  l.filter (fun kv => kv.1 ≠ k)

theorem alookup_aset_self {κ β : Type} [DecidableEq κ] (l : List (κ × β)) (k : κ) (v : β) :
    alookup (aset l k v) k = some v := by
  induction l with
  | nil => simp [aset, alookup]
  | cons hd tl ih =>
    obtain ⟨k', v'⟩ := hd
    by_cases h : k' = k
    · simp [aset, h, alookup]
    · simp [aset, h, alookup, ih]

theorem alookup_aset_ne {κ β : Type} [DecidableEq κ] (l : List (κ × β)) (k q : κ) (v : β)
    (h : q ≠ k) : alookup (aset l k v) q = alookup l q := by
  induction l with
  | nil => simp [aset, alookup, Ne.symm h]
  | cons hd tl ih =>
    obtain ⟨k', v'⟩ := hd
    by_cases hk : k' = k
    · subst hk
      simp [aset, alookup, Ne.symm h]
    · by_cases hq : k' = q
      · simp [aset, hk, alookup, hq, h]
      · simp [aset, hk, alookup, hq, ih]

theorem alookup_aerase_self {κ β : Type} [DecidableEq κ] (l : List (κ × β)) (k : κ) :
    alookup (aerase l k) k = none := by
  induction l with
  | nil => simp [aerase, alookup]
  | cons hd tl ih =>
    obtain ⟨k', v'⟩ := hd
    by_cases h : k' = k
    · simpa [aerase, List.filter_cons, h] using ih
    · simpa [aerase, List.filter_cons, h, alookup] using ih

theorem alookup_aerase_ne {κ β : Type} [DecidableEq κ] (l : List (κ × β)) (k q : κ)
    (h : q ≠ k) : alookup (aerase l k) q = alookup l q := by
  induction l with
  | nil => simp [aerase, alookup]
  | cons hd tl ih =>
    obtain ⟨k', v'⟩ := hd
    by_cases hk : k' = k
    · subst hk
      simpa [aerase, List.filter_cons, alookup, Ne.symm h] using ih
    · by_cases hq : k' = q
      · simp [aerase, List.filter_cons, hk, alookup, hq, h]
      · simpa [aerase, List.filter_cons, hk, alookup, hq] using ih

/-! ### Python exceptions and the centralized error handler of `server.py` -/

/-- The exception classes that can be raised by the filesystem operations of
`server.py`.  `fileNotFound`, `permissionDenied` and `isADirectory` have
dedicated `except` clauses in `handle_file_operation`; `notADirectory` and
`fileExists` are only caught by the final `except Exception` clause.  The
`String` argument models Python's `str(e)`. -/
inductive PyExc : Type where
  | fileNotFound (msg : String)
  | permissionDenied (msg : String)
  | isADirectory (msg : String)
  | notADirectory (msg : String)
  | fileExists (msg : String)
  deriving DecidableEq, Repr

/-- Python's `str(e)` for the exceptions above. -/
def pyStr : PyExc → String
  | .fileNotFound m => m
  | .permissionDenied m => m
  | .isADirectory m => m
  | .notADirectory m => m
  | .fileExists m => m

/-- Function `handle_file_operation` from `server.py`: runs an operation (here: its
already-computed `Except` outcome) and converts each recognized exception
class into a descriptive string, with a generic catch-all at the end. -/
def handle_file_operation (operation path : String) (r : Except PyExc String) : String :=
  match r with
  | .ok result => result
  | .error (PyExc.fileNotFound _) => "Error: File not found - '" ++ path ++ "'"
  | .error (PyExc.permissionDenied _) => "Error: Permission denied - '" ++ path ++ "'"
  | .error (PyExc.isADirectory _) => "Error: Path is a directory, not a file - '" ++ path ++ "'"
  | .error e => "Error in '" ++ operation ++ "': " ++ pyStr e

/-! ### The filesystem model -/

/-- A filesystem node: a regular file with its textual content, or a directory. -/
inductive Entry : Type where
  | file (content : String)
  | dir
  deriving DecidableEq, Repr

/-- The filesystem: a flat map from component paths to entries.  The root `[]`
is implicitly always an existing directory. -/
abbrev FS := List (List String × Entry)

/-- Splitting a character list on \'/\', dropping empty components; `cur`
accumulates the current component in reverse. -/
def pathComponents : List Char → List Char → List String
  | [], cur => if cur.isEmpty then [] else [String.mk cur.reverse]
  | c :: rest, cur =>
    if c = '/' then
      if cur.isEmpty then pathComponents rest []
      else String.mk cur.reverse :: pathComponents rest []
    else pathComponents rest (c :: cur)

/-- Split a path string into its components, as `pathlib.Path` does
(split on \'/\', empty components dropped). -/
def parsePath (s : String) : List String :=
  pathComponents s.data []

def lookupFS (fs : FS) (p : List String) : Option Entry :=
  alookup fs p

/-- Model of `Path.exists()`: the root always exists. -/
def existsB (fs : FS) (p : List String) : Bool :=
  p.isEmpty || (lookupFS fs p).isSome

/-- Model of `Path.is_dir()`: the root is a directory. -/
def isDirB (fs : FS) (p : List String) : Bool :=
  p.isEmpty || (lookupFS fs p == some Entry.dir)

/-- Model of `Path.mkdir(parents=True, exist_ok=True)`: walk the components of the
target path, creating each missing prefix as a directory.  A prefix that
exists as a regular file aborts the walk: with `NotADirectoryError` for a
strict ancestor, `FileExistsError` for the target itself (which `exist_ok`
does not suppress for non-directories). -/
def mkdirP : FS → List String → List String → Except PyExc FS
  | fs, _, [] => Except.ok fs
  | fs, done, c :: rest =>
    match lookupFS fs (done ++ [c]) with
    | some Entry.dir => mkdirP fs (done ++ [c]) rest
    | some (Entry.file _) =>
      if rest.isEmpty then
        Except.error (PyExc.fileExists
          ("[Errno 17] File exists: '" ++ String.intercalate "/" (done ++ [c]) ++ "'"))
      else
        Except.error (PyExc.notADirectory
          ("[Errno 20] Not a directory: '" ++ String.intercalate "/" (done ++ [c]) ++ "'"))
    | none => mkdirP (aset fs (done ++ [c]) Entry.dir) (done ++ [c]) rest

/-! ### The five file-operation tools of `server.py`
Each tool takes its raw string arguments plus the filesystem state and
returns the textual result (success text or normalized error string from
`handle_file_operation`) together with the possibly-updated state. -/

/-- Model of POSIX resolution of the parent chain of a path, as performed by
`open`/`unlink` before reaching the final component: walking the proper
prefixes in order, the first prefix that exists as a regular file raises
`NotADirectoryError` (ENOTDIR) and the first missing prefix raises
`FileNotFoundError` (ENOENT); `none` means every proper prefix is a
directory and resolution reaches the final component. -/
def parentFault (fs : FS) (path_str : String) : List String → List String → Option PyExc
  | _, [] => none
  | _, [_] => none
  | done, c :: c2 :: rest =>
    match lookupFS fs (done ++ [c]) with
    | some Entry.dir => parentFault fs path_str (done ++ [c]) (c2 :: rest)
    | some (Entry.file _) =>
      some (PyExc.notADirectory ("[Errno 20] Not a directory: '" ++ path_str ++ "'"))
    | none =>
      some (PyExc.fileNotFound
        ("[Errno 2] No such file or directory: '" ++ path_str ++ "'"))

/-- Tool `read_file`: `Path(file_path).read_text()` wrapped by the handler.
Resolution of the parent chain can already raise (ENOTDIR under a file
ancestor, ENOENT under a missing one); then the final component yields the
content, `IsADirectoryError`, or `FileNotFoundError`. -/
def read_file (file_path : String) (fs : FS) : String × FS :=
  let p := parsePath file_path
  let r : Except PyExc String :=
    match parentFault fs file_path [] p with
    | some e => Except.error e
    | none =>
      match lookupFS fs p with
      | some (Entry.file c) => Except.ok c
      | some Entry.dir => Except.error (PyExc.isADirectory
          ("[Errno 21] Is a directory: '" ++ file_path ++ "'"))
      | none =>
        if p.isEmpty then
          Except.error (PyExc.isADirectory ("[Errno 21] Is a directory: '" ++ file_path ++ "'"))
        else
          Except.error (PyExc.fileNotFound
            ("[Errno 2] No such file or directory: '" ++ file_path ++ "'"))
  (handle_file_operation "read_file" file_path r, fs)

/-- Tool `write_file`: creates the parent directories, then writes the content;
reports the number of characters written. -/
def write_file (file_path content : String) (fs : FS) : String × FS :=
  let p := parsePath file_path
  match mkdirP fs [] p.dropLast with
  | Except.error e => (handle_file_operation "write_file" file_path (Except.error e), fs)
  | Except.ok fs1 =>
    if isDirB fs1 p then
      (handle_file_operation "write_file" file_path
        (Except.error (PyExc.isADirectory ("[Errno 21] Is a directory: '" ++ file_path ++ "'"))),
       fs1)
    else
      (handle_file_operation "write_file" file_path
        (Except.ok ("Successfully wrote " ++ toString content.length ++ " characters to '"
          ++ file_path ++ "'")),
       aset fs1 p (Entry.file content))

/-- Tool `delete_file`: refuses directories with `IsADirectoryError`, then
unlinks; `unlink` resolves the parent chain first (ENOTDIR under a file
ancestor, ENOENT under a missing one), then ENOENT for a missing target. -/
def delete_file (file_path : String) (fs : FS) : String × FS :=
  let p := parsePath file_path
  if isDirB fs p then
    (handle_file_operation "delete_file" file_path
      (Except.error (PyExc.isADirectory "Use delete_directory for directories")), fs)
  else
    match parentFault fs file_path [] p with
    | some e => (handle_file_operation "delete_file" file_path (Except.error e), fs)
    | none =>
      match lookupFS fs p with
      | some _ =>
        (handle_file_operation "delete_file" file_path
          (Except.ok ("Successfully deleted file '" ++ file_path ++ "'")), aerase fs p)
      | none =>
        (handle_file_operation "delete_file" file_path
          (Except.error (PyExc.fileNotFound
            ("[Errno 2] No such file or directory: '" ++ file_path ++ "'"))), fs)

/-- Tool `create_directory`: `Path(directory_path).mkdir(parents=True, exist_ok=True)`. -/
def create_directory (directory_path : String) (fs : FS) : String × FS :=
  let p := parsePath directory_path
  match mkdirP fs [] p with
  | Except.error e =>
    (handle_file_operation "create_directory" directory_path (Except.error e), fs)
  | Except.ok fs1 =>
    (handle_file_operation "create_directory" directory_path
      (Except.ok ("Successfully created directory '" ++ directory_path ++ "'")), fs1)

/-! ### `list_directory`: directory listing rendered as indented JSON -/

/-- One listing entry as built by `list_directory`:
`{"name": ..., "type": ..., "size": ...}`. -/
structure Item : Type where
  name : String
  type : String
  size : Option Nat
  deriving DecidableEq, Repr

/-- The entry built for one child of the listed directory. -/
def itemOf (c : String × Entry) : Item :=
  match c.2 with
  | Entry.file content => { name := c.1, type := "file", size := some content.utf8ByteSize }
  | Entry.dir => { name := c.1, type := "directory", size := none }

/-- The immediate children of directory `p`: entries whose path is `p ++ [n]`. -/
def childrenOf (fs : FS) (p : List String) : List (String × Entry) :=
  fs.filterMap (fun kv =>
    match kv.1.drop p.length with
    | [n] => if kv.1.take p.length = p then some (n, kv.2) else none
    | _ => none)

/-- Lexicographic code-point comparison of character lists: the `<=` of
Python strings. -/
def strLeB : List Char → List Char → Bool
  | [], _ => true
  | _ :: _, [] => false
  | a :: as, b :: bs =>
    if a < b then true
    else if b < a then false
    else strLeB as bs

/-- Name order on directory children. -/
def nameLe (a b : String × Entry) : Prop :=
  strLeB a.1.data b.1.data = true

instance nameLe.decRel : DecidableRel nameLe :=
  fun _ _ => inferInstanceAs (Decidable (_ = true))

theorem strLeB_total : ∀ x y : List Char, strLeB x y = true ∨ strLeB y x = true := by
  intro x
  induction x with
  | nil => intro y; left; rfl
  | cons a as ih =>
    intro y
    cases y with
    | nil => right; rfl
    | cons b bs =>
      by_cases hab : a < b
      · left; simp [strLeB, hab]
      · by_cases hba : b < a
        · right; simp [strLeB, hba]
        · rcases ih bs with h | h
          · left; simp [strLeB, hab, hba, h]
          · right; simp [strLeB, hab, hba, h]

theorem strLeB_trans : ∀ x y z : List Char,
    strLeB x y = true → strLeB y z = true → strLeB x z = true := by
  intro x
  induction x with
  | nil => intro y z _ _; rfl
  | cons a as ih =>
    intro y z hxy hyz
    cases y with
    | nil => simp [strLeB] at hxy
    | cons b bs =>
      cases z with
      | nil => simp [strLeB] at hyz
      | cons c cs =>
        by_cases hab : a < b
        · by_cases hbc : b < c
          · simp [strLeB, lt_trans hab hbc]
          · by_cases hcb : c < b
            · simp [strLeB, hbc, hcb] at hyz
            · have hbc' : b = c := le_antisymm (not_lt.mp hcb) (not_lt.mp hbc)
              subst hbc'
              simp [strLeB, hab]
        · by_cases hba : b < a
          · simp [strLeB, hab, hba] at hxy
          · have hab' : a = b := le_antisymm (not_lt.mp hba) (not_lt.mp hab)
            subst hab'
            by_cases hac : a < c
            · simp [strLeB, hac]
            · by_cases hca : c < a
              · simp [strLeB, hca, hac] at hyz
              · simp [strLeB, hab, hba] at hxy
                simp [strLeB, hac, hca] at hyz ⊢
                exact ih bs cs hxy hyz

instance nameLe.isTotal : IsTotal (String × Entry) nameLe :=
  ⟨fun a b => strLeB_total a.1.data b.1.data⟩

instance nameLe.isTrans : IsTrans (String × Entry) nameLe :=
  ⟨fun a b c => strLeB_trans a.1.data b.1.data c.1.data⟩

/-- Model of `sorted(path.iterdir())`: children sorted by name (Python compares the
path strings, which within one directory is comparison of the names). -/
def sortByName (l : List (String × Entry)) : List (String × Entry) :=
  List.insertionSort nameLe l

/-- The items of a directory listing, in sorted order. -/
def itemsOf (fs : FS) (p : List String) : List Item :=
  (sortByName (childrenOf fs p)).map itemOf

/-- One hex digit, lowercase, as produced by Python's `json` module. -/
def toHexDigit (n : Nat) : Char :=
  if n < 10 then Char.ofNat (48 + n) else Char.ofNat (87 + n)

def toHex4 (n : Nat) : String :=
  String.mk [toHexDigit (n / 4096 % 16), toHexDigit (n / 256 % 16),
             toHexDigit (n / 16 % 16), toHexDigit (n % 16)]

/-- JSON string escaping as performed by `json.dumps` (ensure_ascii default). -/
def jsonEscapeChar (c : Char) : String :=
  if c = '"' then "\\\""
  else if c = '\\' then "\\\\"
  else if c = '\n' then "\\n"
  else if c = '\r' then "\\r"
  else if c = '\t' then "\\t"
  else if c = '\x08' then "\\b"
  else if c = '\x0c' then "\\f"
  else if c.toNat < 32 ∨ c.toNat > 126 then
    if c.toNat ≤ 65535 then "\\u" ++ toHex4 c.toNat
    else "\\u" ++ toHex4 (55296 + (c.toNat - 65536) / 1024)
      ++ "\\u" ++ toHex4 (56320 + (c.toNat - 65536) % 1024)
  else String.mk [c]

def jsonStr (s : String) : String :=
  "\"" ++ String.join (s.data.map jsonEscapeChar) ++ "\""

/-- Rendering of one `{name, type, size}` object at `json.dumps(..., indent=2)`
nesting depth 1. -/
def renderItem (it : Item) : String :=
  "  \x7b\n    \"name\": " ++ jsonStr it.name
    ++ ",\n    \"type\": " ++ jsonStr it.type
    ++ ",\n    \"size\": " ++ (match it.size with
        | some n => toString n
        | none => "null")
    ++ "\n  \x7d"

/-- Model of `json.dumps(items, indent=2)` for a list of `{name, type, size}` objects. -/
def pyJsonDumps (items : List Item) : String :=
  match items with
  | [] => "[]"
  | _ => "[\n" ++ String.intercalate ",\n" (items.map renderItem) ++ "\n]"

/-- Tool `list_directory`: checks existence and directory-ness (raising
`FileNotFoundError` resp. `NotADirectoryError`), then returns the sorted
JSON listing. -/
def list_directory (directory_path : String) (fs : FS) : String × FS :=
  let p := parsePath directory_path
  let r : Except PyExc String :=
    if existsB fs p then
      if isDirB fs p then
        Except.ok (pyJsonDumps (itemsOf fs p))
      else
        Except.error (PyExc.notADirectory ("Path is not a directory: " ++ directory_path))
    else
      Except.error (PyExc.fileNotFound ("Directory not found: " ++ directory_path))
  (handle_file_operation "list_directory" directory_path r, fs)

/-! ### `ai_client.py`: schema translation -/

/-- A JSON value (the duck-typed payloads of `ai_client.py`). -/
inductive Json : Type where
  | null
  | bool (b : Bool)
  | num (n : Int)
  | str (s : String)
  | arr (elems : List Json)
  | obj (fields : List (String × Json))

/-- An MCP tool as returned by `list_tools()`: name, optional description and
the declared input schema (a JSON object, i.e. a Python dict). -/
structure MCPTool : Type where
  name : String
  description : Option String
  inputSchema : List (String × Json)

/-- The inner `"function"` object of the spec built by
`build_openai_tool_schema`: name, description (with the `or` fallback for a
missing or empty description), the mutated parameter schema, and the strict
flag. -/
def funcObj (tool : MCPTool) (params : List (String × Json)) : Json :=
  Json.obj
    [("name", Json.str tool.name),
     ("description", Json.str (match tool.description with
        | some d => if d = "" then "Function " ++ tool.name else d
        | none => "Function " ++ tool.name)),
     ("parameters", Json.obj params),
     ("strict", Json.bool true)]

/-- The `"function"` wrapper built by `build_openai_tool_schema` around the
mutated parameter schema. -/
def mkFunc (tool : MCPTool) (params : List (String × Json)) : Json :=
  Json.obj [("type", Json.str "function"), ("function", funcObj tool params)]

/-- Function `build_openai_tool_schema` from `ai_client.py`: copies the input schema,
sets `additionalProperties` to `False`, and sets `required` to the full list
of declared property names.  `props = schema.get("properties", {})` followed
by `list(props.keys())` raises `AttributeError` when the `properties` entry is
present but is not a dict; this is modelled by the `Except.error` branch. -/
def build_openai_tool_schema (tool : MCPTool) : Except String Json :=
  let schema0 := aset tool.inputSchema "additionalProperties" (Json.bool false)
  match alookup schema0 "properties" with
  | some (Json.obj kvs) =>
    Except.ok (mkFunc tool (aset schema0 "required"
      (Json.arr ((kvs.map Prod.fst).map Json.str))))
  | none =>
    Except.ok (mkFunc tool (aset schema0 "required" (Json.arr [])))
  | some _ => Except.error "AttributeError: object has no attribute keys"

/-- Key lookup inside a JSON object. -/
def jGet (j : Json) (k : String) : Option Json :=
  match j with
  | Json.obj kvs => alookup kvs k
  | _ => none

/-- The declared property names of an input schema (empty when `properties`
is absent or not an object). -/
def propKeys (schema : List (String × Json)) : List String :=
  match alookup schema "properties" with
  | some (Json.obj kvs) => kvs.map Prod.fst
  | _ => []

/-! ### `ai_client.py`: conversation state and the orchestration loop -/

/-- A parsed tool-call request: the tool name with its decoded arguments. -/
inductive ToolReq : Type where
  | read (file_path : String)
  | write (file_path content : String)
  | list (directory_path : String)
  | delete (file_path : String)
  | mkdir (directory_path : String)
  deriving DecidableEq, Repr

/-- A tool call as emitted by the model: its id plus the parsed request. -/
structure ToolCall : Type where
  id : String
  req : ToolReq
  deriving DecidableEq, Repr

/-- A message of the conversation history.  The assistant constructor carries
the tool-call list (empty for plain answers); tool messages carry the
`tool_call_id` they answer. -/
inductive Msg : Type where
  | system (content : String)
  | user (content : String)
  | assistant (content : Option String) (toolCalls : List ToolCall)
  | tool (toolCallId : String) (content : String)
  deriving DecidableEq, Repr

/-- A chat-completion response: optional text plus requested tool calls. -/
structure ModelResponse : Type where
  content : Option String
  toolCalls : List ToolCall
  deriving DecidableEq, Repr

/-- The chat-completion service, abstracted as a function of the full
message snapshot sent to it. -/
abbrev Model := List Msg → ModelResponse

/-- Server-side dispatch of one parsed tool call against the filesystem. -/
def dispatchTool (r : ToolReq) (fs : FS) : String × FS :=
  match r with
  | .read fp => read_file fp fs
  | .write fp c => write_file fp c fs
  | .list dp => list_directory dp fs
  | .delete fp => delete_file fp fs
  | .mkdir dp => create_directory dp fs

/-- The `for tool_call in tool_calls` loop of `ai_client.py`: execute each
request in order, appending one tool-role message per request. -/
def execCalls : List ToolCall → List Msg → FS → List Msg × FS
  | [], msgs, fs => (msgs, fs)
  | tc :: rest, msgs, fs =>
    let r := dispatchTool tc.req fs
    execCalls rest (msgs ++ [Msg.tool tc.id r.1]) r.2

/-- The tool-role messages produced by executing a list of calls in order. -/
def resultMsgs : List ToolCall → FS → List Msg
  | [], _ => []
  | tc :: rest, fs =>
    Msg.tool tc.id (dispatchTool tc.req fs).1 :: resultMsgs rest (dispatchTool tc.req fs).2

/-- The filesystem state after executing a list of calls in order. -/
def finalFS : List ToolCall → FS → FS
  | [], fs => fs
  | tc :: rest, fs => finalFS rest (dispatchTool tc.req fs).2

/-- One turn of the orchestration loop of `ai_client.py`, after the user
message has been appended: call the model; if the response has tool calls,
append the assistant message with them, execute all calls, make exactly one
follow-up model call and append its content as the final answer; otherwise
append the content directly.  The `Nat` counts chat-completion calls made. -/
def processTurn (model : Model) (msgs : List Msg) (fs : FS) : List Msg × FS × Nat :=
  let r := model msgs
  if r.toolCalls.isEmpty then
    (msgs ++ [Msg.assistant r.content []], fs, 1)
  else
    let msgs1 := msgs ++ [Msg.assistant r.content r.toolCalls]
    let ex := execCalls r.toolCalls msgs1 fs
    let r2 := model ex.1
    (ex.1 ++ [Msg.assistant r2.content []], ex.2, 2)

/-! ### `ai_client.py`: user-input handling -/

/-- Python `str.strip()` whitespace: all characters for which
`str.isspace()` holds (U+0009-U+000D, U+001C-U+001F, the space, NEL,
NBSP, Ogham space, the U+2000-U+200A spaces, LS, PS, narrow NBSP,
medium mathematical space and ideographic space). -/
def isPySpace (c : Char) : Bool :=
  (9 ≤ c.toNat && c.toNat ≤ 13)
  || (28 ≤ c.toNat && c.toNat ≤ 31)
  || c.toNat = 32 || c.toNat = 133 || c.toNat = 160 || c.toNat = 5760
  || (8192 ≤ c.toNat && c.toNat ≤ 8202)
  || c.toNat = 8232 || c.toNat = 8233 || c.toNat = 8239 || c.toNat = 8287
  || c.toNat = 12288

/-- Python `str.strip()`: remove leading and trailing whitespace. -/
def pyStrip (s : String) : String :=
  String.mk (((s.data.dropWhile isPySpace).reverse.dropWhile isPySpace).reverse)

/-- Python `str.lower()`. -/
def pyLower (s : String) : String :=
  String.mk (s.data.map Char.toLower)

/-- What the loop does with one line of raw user input. -/
inductive InputAction : Type where
  | terminate
  | skip
  | proceed (stripped : String)
  deriving DecidableEq, Repr

/-- The input handling of the `while True` loop: strip, then check the quit
tokens (case-insensitively), then skip empty input. -/
def classifyInput (raw : String) : InputAction :=
  let t := pyStrip raw
  if pyLower t = "quit" ∨ pyLower t = "exit" then InputAction.terminate
  else if t = "" then InputAction.skip
  else InputAction.proceed t

/-- One iteration of the outer loop: `none` means the session terminates;
otherwise the new history, filesystem and number of model calls made. -/
def runInput (model : Model) (raw : String) (msgs : List Msg) (fs : FS) :
    Option (List Msg × FS × Nat) :=
  match classifyInput raw with
  | InputAction.terminate => none
  | InputAction.skip => some (msgs, fs, 0)
  | InputAction.proceed t => some (processTurn model (msgs ++ [Msg.user t]) fs)

/-- The `tool_call_id` of a tool-role message. -/
def callIdOf : Msg → Option String
  | Msg.tool id _ => some id
  | _ => none

/-- The conversation-state invariant: every tool-role message is preceded by
an assistant message whose tool-call list contains its call id. -/
def wfConv (msgs : List Msg) : Prop :=
  ∀ i id c, msgs.get? i = some (Msg.tool id c) →
    ∃ j a tcs, j < i ∧ msgs.get? j = some (Msg.assistant a tcs) ∧ id ∈ tcs.map ToolCall.id

/-! ### Helper lemmas about `mkdirP` -/

/-- If no (nonempty) prefix of the target is an existing regular file, the
recursive directory creation succeeds, touches no path longer than the
target, and only ever turns paths into directories. -/
theorem mkdirP_spec (rest : List String) : ∀ (done : List String) (fs : FS),
    (∀ k, k < rest.length → ∀ c, lookupFS fs (done ++ rest.take (k + 1)) ≠ some (Entry.file c)) →
    ∃ fs1, mkdirP fs done rest = Except.ok fs1
      ∧ (∀ q : List String, done.length + rest.length < q.length → lookupFS fs1 q = lookupFS fs q)
      ∧ (∀ q : List String, lookupFS fs1 q = lookupFS fs q ∨ lookupFS fs1 q = some Entry.dir)
      ∧ (∀ k, k < rest.length →
          lookupFS fs1 (done ++ rest.take (k + 1)) = some Entry.dir) := by
  induction rest with
  | nil =>
    intro done fs _
    exact ⟨fs, rfl, fun _ _ => rfl, fun _ => Or.inl rfl, fun _ hk => absurd hk (Nat.not_lt_zero _)⟩
  | cons c r ih =>
    intro done fs h
    have h0 : ∀ cc, lookupFS fs (done ++ [c]) ≠ some (Entry.file cc) := by
      intro cc
      have := h 0 (by simp) cc
      simpa using this
    cases hl : lookupFS fs (done ++ [c]) with
    | none =>
      have h' : ∀ k, k < r.length →
          ∀ cc, lookupFS (aset fs (done ++ [c]) Entry.dir) ((done ++ [c]) ++ r.take (k + 1))
            ≠ some (Entry.file cc) := by
        intro k hk cc
        have hne : (done ++ [c]) ++ r.take (k + 1) ≠ done ++ [c] := by
          intro he
          have he' : (done ++ [c]) ++ r.take (k + 1) = (done ++ [c]) ++ [] := by
            simpa using he
          have ht : r.take (k + 1) = [] := List.append_cancel_left he'
          have hlen := congrArg List.length ht
          rw [List.length_take] at hlen
          simp only [List.length_nil] at hlen
          omega
        show alookup (aset fs (done ++ [c]) Entry.dir) ((done ++ [c]) ++ r.take (k + 1))
          ≠ some (Entry.file cc)
        rw [alookup_aset_ne _ _ _ _ hne]
        have hh := h (k + 1) (by simpa using Nat.succ_lt_succ hk) cc
        rw [List.take_succ_cons, List.append_cons] at hh
        exact hh
      obtain ⟨fs1, hok, hlong, hdisj, hdirs⟩ :=
        ih (done ++ [c]) (aset fs (done ++ [c]) Entry.dir) h'
      refine ⟨fs1, by simp [mkdirP, hl, hok], ?_, ?_, ?_⟩
      · intro q hq
        have hlq : (done ++ [c]).length + r.length < q.length := by
          simp at hq ⊢
          omega
        have hq0 : q ≠ done ++ [c] := by
          intro he
          have := congrArg List.length he
          simp at this hlq
          omega
        rw [hlong q hlq]
        show alookup (aset fs (done ++ [c]) Entry.dir) q = alookup fs q
        rw [alookup_aset_ne _ _ _ _ hq0]
      · intro q
        rcases hdisj q with hc | hc
        · by_cases hq0 : q = done ++ [c]
          · subst hq0
            right
            rw [hc]
            exact alookup_aset_self fs (done ++ [c]) Entry.dir
          · left
            rw [hc]
            exact alookup_aset_ne _ _ _ _ hq0
        · exact Or.inr hc
      · intro k hk
        cases k with
        | zero =>
          have hq : done ++ (c :: r).take 1 = done ++ [c] := by simp
          rw [hq]
          rcases hdisj (done ++ [c]) with hcase | hcase
          · rw [hcase]
            exact alookup_aset_self fs (done ++ [c]) Entry.dir
          · exact hcase
        | succ k =>
          have hk' : k < r.length := by
            simp only [List.length_cons] at hk
            omega
          have hh := hdirs k hk'
          rw [List.take_succ_cons, List.append_cons]
          exact hh
    | some e =>
      cases e with
      | file cc => exact absurd hl (h0 cc)
      | dir =>
        have h' : ∀ k, k < r.length →
            ∀ cc, lookupFS fs ((done ++ [c]) ++ r.take (k + 1)) ≠ some (Entry.file cc) := by
          intro k hk cc
          have hh := h (k + 1) (by simpa using Nat.succ_lt_succ hk) cc
          rw [List.take_succ_cons, List.append_cons] at hh
          exact hh
        obtain ⟨fs1, hok, hlong, hdisj, hdirs⟩ := ih (done ++ [c]) fs h'
        refine ⟨fs1, by simp [mkdirP, hl, hok], ?_, hdisj, ?_⟩
        · intro q hq
          apply hlong
          simp at hq ⊢
          omega
        · intro k hk
          cases k with
          | zero =>
            have hq : done ++ (c :: r).take 1 = done ++ [c] := by simp
            rw [hq]
            rcases hdisj (done ++ [c]) with hcase | hcase
            · rw [hcase]
              exact hl
            · exact hcase
          | succ k =>
            have hk' : k < r.length := by
              simp only [List.length_cons] at hk
              omega
            have hh := hdirs k hk'
            rw [List.take_succ_cons, List.append_cons]
            exact hh

/-- When every intermediate prefix of the walk is an existing directory,
parent resolution raises nothing. -/
theorem parentFault_none (fs : FS) (ps : String) : ∀ (rest done : List String),
    (∀ k, k + 1 < rest.length → lookupFS fs (done ++ rest.take (k + 1)) = some Entry.dir) →
    parentFault fs ps done rest = none := by
  intro rest
  induction rest with
  | nil => intro done _; rfl
  | cons c r ih =>
    intro done h
    cases r with
    | nil => rfl
    | cons c2 r2 =>
      have h0 : lookupFS fs (done ++ [c]) = some Entry.dir := by
        have hh := h 0 (by simp)
        simpa using hh
      rw [parentFault, h0]
      apply ih (done ++ [c])
      intro k hk
      have hh := h (k + 1) (by
        simp only [List.length_cons] at hk ⊢
        omega)
      rw [List.take_succ_cons, List.append_cons] at hh
      exact hh

/-! ### Helper lemmas about tool-call execution and the conversation invariant -/

theorem execCalls_eq (tcs : List ToolCall) : ∀ (msgs : List Msg) (fs : FS),
    execCalls tcs msgs fs = (msgs ++ resultMsgs tcs fs, finalFS tcs fs) := by
  induction tcs with
  | nil => intro msgs fs; simp [execCalls, resultMsgs, finalFS]
  | cons tc rest ih =>
    intro msgs fs
    rw [execCalls, resultMsgs, finalFS, ih]
    simp

theorem resultMsgs_ids (tcs : List ToolCall) : ∀ fs : FS,
    (resultMsgs tcs fs).map callIdOf = tcs.map (fun tc => some tc.id) := by
  induction tcs with
  | nil => intro fs; simp [resultMsgs]
  | cons tc rest ih => intro fs; simp [resultMsgs, callIdOf, ih]

theorem resultMsgs_length (tcs : List ToolCall) (fs : FS) :
    (resultMsgs tcs fs).length = tcs.length := by
  have := congrArg List.length (resultMsgs_ids tcs fs)
  simpa using this

theorem resultMsgs_mem (tcs : List ToolCall) : ∀ fs : FS, ∀ m ∈ resultMsgs tcs fs,
    ∃ id c, m = Msg.tool id c ∧ id ∈ tcs.map ToolCall.id := by
  induction tcs with
  | nil => intro fs m hm; simp [resultMsgs] at hm
  | cons tc rest ih =>
    intro fs m hm
    rw [resultMsgs] at hm
    rcases List.mem_cons.mp hm with hm | hm
    · exact ⟨tc.id, _, hm, by simp⟩
    · obtain ⟨id, c, he, hid⟩ := ih _ m hm
      exact ⟨id, c, he, by simp [hid]⟩

theorem get?_append_left_of_some {msgs l' : List Msg} {j : Nat} {x : Msg}
    (h : msgs.get? j = some x) : (msgs ++ l').get? j = some x := by
  obtain ⟨hj, _⟩ := List.get?_eq_some.mp h
  rw [List.get?_append hj]
  exact h

theorem wfConv_append_nonTool (msgs : List Msg) (m : Msg) (hm : callIdOf m = none)
    (hwf : wfConv msgs) : wfConv (msgs ++ [m]) := by
  intro i id c hget
  rcases Nat.lt_or_ge i msgs.length with hi | hi
  · rw [List.get?_append hi] at hget
    obtain ⟨j, a, tcs, hj, hg, hmem⟩ := hwf i id c hget
    exact ⟨j, a, tcs, hj, get?_append_left_of_some hg, hmem⟩
  · rw [List.get?_append_right hi] at hget
    rcases Nat.lt_or_ge (i - msgs.length) 1 with hi1 | hi1
    · interval_cases h : i - msgs.length
      · simp [List.get?] at hget
        rw [hget] at hm
        simp [callIdOf] at hm
    · rw [List.get?_eq_none.mpr (by simpa using hi1)] at hget
      exact absurd hget (by simp)

theorem wfConv_append_tool (msgs : List Msg) (id : String) (c : String)
    (hwf : wfConv msgs)
    (hex : ∃ j a tcs, msgs.get? j = some (Msg.assistant a tcs) ∧ id ∈ tcs.map ToolCall.id) :
    wfConv (msgs ++ [Msg.tool id c]) := by
  intro i id' c' hget
  rcases Nat.lt_or_ge i msgs.length with hi | hi
  · rw [List.get?_append hi] at hget
    obtain ⟨j, a, tcs, hj, hg, hmem⟩ := hwf i id' c' hget
    exact ⟨j, a, tcs, hj, get?_append_left_of_some hg, hmem⟩
  · rw [List.get?_append_right hi] at hget
    rcases Nat.lt_or_ge (i - msgs.length) 1 with hi1 | hi1
    · obtain ⟨j, a, tcs, hg, hmem⟩ := hex
      obtain ⟨hjlt, _⟩ := List.get?_eq_some.mp hg
      have h0 : i - msgs.length = 0 := by omega
      rw [h0] at hget
      simp [List.get?] at hget
      refine ⟨j, a, tcs, by omega, get?_append_left_of_some hg, ?_⟩
      rw [← hget.1]
      exact hmem
    · rw [List.get?_eq_none.mpr (by simpa using hi1)] at hget
      exact absurd hget (by simp)

theorem wfConv_execCalls (tcs : List ToolCall) : ∀ (msgs : List Msg) (fs : FS),
    wfConv msgs →
    (∀ tc ∈ tcs, ∃ j a tcs0,
      msgs.get? j = some (Msg.assistant a tcs0) ∧ tc.id ∈ tcs0.map ToolCall.id) →
    wfConv (execCalls tcs msgs fs).1 := by
  induction tcs with
  | nil => intro msgs fs hwf _; simpa [execCalls] using hwf
  | cons tc rest ih =>
    intro msgs fs hwf hex
    rw [execCalls]
    apply ih
    · apply wfConv_append_tool _ _ _ hwf
      exact hex tc (List.mem_cons_self tc rest)
    · intro tc' htc'
      obtain ⟨j, a, tcs0, hg, hmem⟩ := hex tc' (List.mem_cons_of_mem tc htc')
      exact ⟨j, a, tcs0, get?_append_left_of_some hg, hmem⟩

/-! ### Claim C5: reading a nonexistent path -/

/-- Claim C5: invoking read on the nonexistent path "/no/such/file" — in any
state where the path is absent and no ancestor is occupied by a regular file
(ancestors may be directories or missing, matching ENOENT either way) —
returns exactly the string "Error: File not found - '/no/such/file'" as a
successful result; the state is unchanged and no fault propagates (the
operation is a total function into result strings). -/
theorem read_missing_returns_error_string (fs : FS)
    (h1 : lookupFS fs ["no", "such", "file"] = none)
    (h2 : ∀ c, lookupFS fs ["no"] ≠ some (Entry.file c))
    (h3 : ∀ c, lookupFS fs ["no", "such"] ≠ some (Entry.file c)) :
    read_file "/no/such/file" fs = ("Error: File not found - '/no/such/file'", fs) := by
  have hp : parsePath "/no/such/file" = ["no", "such", "file"] := by decide
  cases ha : lookupFS fs ["no"] with
  | none => simp [read_file, hp, parentFault, ha, handle_file_operation]
  | some e =>
    cases e with
    | file c => exact absurd ha (h2 c)
    | dir =>
      cases hb : lookupFS fs ["no", "such"] with
      | none => simp [read_file, hp, parentFault, ha, hb, handle_file_operation]
      | some e2 =>
        cases e2 with
        | file c => exact absurd hb (h3 c)
        | dir => simp [read_file, hp, parentFault, ha, hb, h1, handle_file_operation]

/-- Witness for C5 at the empty filesystem. -/
theorem read_missing_returns_error_string_witness :
    (lookupFS ([] : FS) ["no", "such", "file"] = none
      ∧ (∀ c, lookupFS ([] : FS) ["no"] ≠ some (Entry.file c))
      ∧ (∀ c, lookupFS ([] : FS) ["no", "such"] ≠ some (Entry.file c)))
    ∧ read_file "/no/such/file" [] = ("Error: File not found - '/no/such/file'", []) :=
  ⟨⟨by decide, fun c => by simp [lookupFS, alookup], fun c => by simp [lookupFS, alookup]⟩,
    read_missing_returns_error_string [] (by decide)
      (fun c => by simp [lookupFS, alookup]) (fun c => by simp [lookupFS, alookup])⟩

/-! ### Claim C9: delete on a directory -/

/-- Claim C9: invoking delete on an existing directory returns the error
string "Error: Path is a directory, not a file - '<P>'" and leaves the
filesystem state completely unchanged. -/
theorem delete_directory_error_and_unchanged (fs : FS) (file_path : String)
    (h : isDirB fs (parsePath file_path) = true) :
    delete_file file_path fs
      = ("Error: Path is a directory, not a file - '" ++ file_path ++ "'", fs) := by
  simp [delete_file, h, handle_file_operation]

/-- Witness for C9: deleting the directory "d". -/
theorem delete_directory_error_and_unchanged_witness :
    isDirB [(["d"], Entry.dir)] (parsePath "d") = true
    ∧ delete_file "d" [(["d"], Entry.dir)]
      = ("Error: Path is a directory, not a file - 'd'", [(["d"], Entry.dir)]) :=
  ⟨by decide, delete_directory_error_and_unchanged [(["d"], Entry.dir)] "d" (by decide)⟩

/-! ### Claim C7: mkdir idempotence -/

/-- Claim C7 counterexample: on a filesystem where "a" is an existing regular
file, the first create_directory "a" call already yields an error result (the
FileExistsError raised by mkdir is only caught by the generic handler), so
"invoking mkdir on P twice yields a success result both times" fails for
the path "a". -/
theorem create_directory_fails_on_existing_file :
    (create_directory "a" [(["a"], Entry.file "x")]).1
        = "Error in 'create_directory': [Errno 17] File exists: 'a'"
    ∧ (create_directory "a" [(["a"], Entry.file "x")]).1
        ≠ "Successfully created directory 'a'"
    ∧ (create_directory "a" [(["a"], Entry.file "x")]).2 = [(["a"], Entry.file "x")] := by
  refine ⟨by decide, by decide, by decide⟩

/-- Claim C7 (amended): for every path none of whose nonempty prefixes is an
existing regular file, invoking mkdir twice in succession yields a success
result both times; in particular the second call raises no fault even though
the directory already exists. -/
theorem create_directory_idempotent (fs : FS) (directory_path : String)
    (h : ∀ k, k < (parsePath directory_path).length →
      ∀ c, lookupFS fs ((parsePath directory_path).take (k + 1)) ≠ some (Entry.file c)) :
    ∃ fs1 fs2,
      create_directory directory_path fs
        = ("Successfully created directory '" ++ directory_path ++ "'", fs1)
      ∧ create_directory directory_path fs1
        = ("Successfully created directory '" ++ directory_path ++ "'", fs2) := by
  obtain ⟨fs1, hok1, _, hdisj1, _⟩ :=
    mkdirP_spec (parsePath directory_path) [] fs (by simpa using h)
  have h2 : ∀ k, k < (parsePath directory_path).length →
      ∀ c, lookupFS fs1 ((parsePath directory_path).take (k + 1)) ≠ some (Entry.file c) := by
    intro k hk c
    rcases hdisj1 ((parsePath directory_path).take (k + 1)) with hc | hc
    · rw [hc]; exact h k hk c
    · rw [hc]; simp
  obtain ⟨fs2, hok2, _, _, _⟩ :=
    mkdirP_spec (parsePath directory_path) [] fs1 (by simpa using h2)
  exact ⟨fs1, fs2, by simp [create_directory, hok1, handle_file_operation],
    by simp [create_directory, hok2, handle_file_operation]⟩

/-- Witness for C7 (amended) at the fresh path "a/b" on the empty filesystem. -/
theorem create_directory_idempotent_witness :
    (∀ k, k < (parsePath "a/b").length →
      ∀ c, lookupFS ([] : FS) ((parsePath "a/b").take (k + 1)) ≠ some (Entry.file c))
    ∧ ∃ fs1 fs2,
      create_directory "a/b" [] = ("Successfully created directory 'a/b'", fs1)
      ∧ create_directory "a/b" fs1 = ("Successfully created directory 'a/b'", fs2) := by
  have h : ∀ k, k < (parsePath "a/b").length →
      ∀ c, lookupFS ([] : FS) ((parsePath "a/b").take (k + 1)) ≠ some (Entry.file c) := by
    intro k _ c
    simp [lookupFS, alookup]
  exact ⟨h, create_directory_idempotent [] "a/b" h⟩

/-! ### Claim C6: write/read/delete round-trip -/

/-- Claim C6: for every text T and every fresh path P (nonempty, absent from
the filesystem, all proper prefixes absent or directories), write(P, T) then
read(P) returns exactly T; subsequently delete(P) then read(P) returns the
not-found error string rather than a propagated fault. -/
theorem write_read_delete_roundtrip (fs : FS) (P T : String)
    (h1 : (parsePath P).isEmpty = false)
    (h2 : lookupFS fs (parsePath P) = none)
    (h3 : ∀ k, k < (parsePath P).length →
      lookupFS fs ((parsePath P).take k) = none
      ∨ lookupFS fs ((parsePath P).take k) = some Entry.dir) :
    ∃ fs1 fs2,
      write_file P T fs
        = ("Successfully wrote " ++ toString T.length ++ " characters to '" ++ P ++ "'", fs1)
      ∧ read_file P fs1 = (T, fs1)
      ∧ delete_file P fs1 = ("Successfully deleted file '" ++ P ++ "'", fs2)
      ∧ read_file P fs2 = ("Error: File not found - '" ++ P ++ "'", fs2) := by
  have hp0 : 0 < (parsePath P).length := by
    cases hh : parsePath P with
    | nil => rw [hh] at h1; simp at h1
    | cons a l => simp [hh]
  have hmk : ∀ k, k < (parsePath P).dropLast.length →
      ∀ c, lookupFS fs ([] ++ (parsePath P).dropLast.take (k + 1)) ≠ some (Entry.file c) := by
    intro k hk c
    have hk' : k < (parsePath P).length - 1 := by
      rwa [List.length_dropLast] at hk
    have ht : (parsePath P).dropLast.take (k + 1) = (parsePath P).take (k + 1) := by
      rw [List.dropLast_eq_take, List.take_take]
      congr 1
      omega
    rw [List.nil_append, ht]
    rcases h3 (k + 1) (by omega) with hc | hc <;> simp [hc]
  obtain ⟨fs1, hok, hlong, _, hdirs⟩ := mkdirP_spec (parsePath P).dropLast [] fs hmk
  have hfs1p : lookupFS fs1 (parsePath P) = none := by
    rw [hlong (parsePath P) (by simp [List.length_dropLast]; omega), h2]
  have hdir1 : isDirB fs1 (parsePath P) = false := by
    simp [isDirB, h1, hfs1p]
  have hWlookup : lookupFS (aset fs1 (parsePath P) (Entry.file T)) (parsePath P)
      = some (Entry.file T) := alookup_aset_self fs1 (parsePath P) (Entry.file T)
  have hdirW : isDirB (aset fs1 (parsePath P) (Entry.file T)) (parsePath P) = false := by
    simp [isDirB, h1]
    rw [hWlookup]
    simp
  have hDlookup : lookupFS (aerase (aset fs1 (parsePath P) (Entry.file T)) (parsePath P))
      (parsePath P) = none := alookup_aerase_self _ (parsePath P)
  have hdirs1 : ∀ k, k + 1 < (parsePath P).length →
      lookupFS fs1 ((parsePath P).take (k + 1)) = some Entry.dir := by
    intro k hk
    have hk' : k < (parsePath P).dropLast.length := by
      rw [List.length_dropLast]
      omega
    have hh := hdirs k hk'
    rw [List.nil_append, List.dropLast_eq_take, List.take_take] at hh
    have hmin : min (k + 1) ((parsePath P).length - 1) = k + 1 := by omega
    rwa [hmin] at hh
  have htne : ∀ k : Nat, k + 1 < (parsePath P).length →
      (parsePath P).take (k + 1) ≠ parsePath P := by
    intro k hk he
    have hlen := congrArg List.length he
    rw [List.length_take] at hlen
    omega
  have hdirsW : ∀ k, k + 1 < (parsePath P).length →
      lookupFS (aset fs1 (parsePath P) (Entry.file T)) ((parsePath P).take (k + 1))
        = some Entry.dir := by
    intro k hk
    show alookup _ _ = _
    rw [alookup_aset_ne _ _ _ _ (htne k hk)]
    exact hdirs1 k hk
  have hpfW : parentFault (aset fs1 (parsePath P) (Entry.file T)) P [] (parsePath P)
      = none := by
    apply parentFault_none
    intro k hk
    rw [List.nil_append]
    exact hdirsW k hk
  have hdirsD : ∀ k, k + 1 < (parsePath P).length →
      lookupFS (aerase (aset fs1 (parsePath P) (Entry.file T)) (parsePath P))
        ((parsePath P).take (k + 1)) = some Entry.dir := by
    intro k hk
    show alookup _ _ = _
    rw [alookup_aerase_ne _ _ _ (htne k hk)]
    exact hdirsW k hk
  have hpfD : parentFault (aerase (aset fs1 (parsePath P) (Entry.file T)) (parsePath P)) P
      [] (parsePath P) = none := by
    apply parentFault_none
    intro k hk
    rw [List.nil_append]
    exact hdirsD k hk
  refine ⟨aset fs1 (parsePath P) (Entry.file T),
    aerase (aset fs1 (parsePath P) (Entry.file T)) (parsePath P), ?_, ?_, ?_, ?_⟩
  · simp [write_file, hok, hdir1, handle_file_operation]
  · simp [read_file, hpfW, hWlookup, handle_file_operation]
  · simp [delete_file, hdirW, hpfW, hWlookup, handle_file_operation]
  · simp [read_file, hpfD, hDlookup, h1, handle_file_operation]

/-- Witness for C6: writing "hi" to the fresh path "/tmp/x.txt" on the empty
filesystem. -/
theorem write_read_delete_roundtrip_witness :
    ((parsePath "/tmp/x.txt").isEmpty = false
      ∧ lookupFS ([] : FS) (parsePath "/tmp/x.txt") = none
      ∧ ∀ k, k < (parsePath "/tmp/x.txt").length →
          lookupFS ([] : FS) ((parsePath "/tmp/x.txt").take k) = none
          ∨ lookupFS ([] : FS) ((parsePath "/tmp/x.txt").take k) = some Entry.dir)
    ∧ ∃ fs1 fs2,
      write_file "/tmp/x.txt" "hi" []
        = ("Successfully wrote " ++ toString ("hi" : String).length
            ++ " characters to '" ++ "/tmp/x.txt" ++ "'", fs1)
      ∧ read_file "/tmp/x.txt" fs1 = ("hi", fs1)
      ∧ delete_file "/tmp/x.txt" fs1 = ("Successfully deleted file '" ++ "/tmp/x.txt" ++ "'", fs2)
      ∧ read_file "/tmp/x.txt" fs2 = ("Error: File not found - '" ++ "/tmp/x.txt" ++ "'", fs2) := by
  have hh : ∀ k, k < (parsePath "/tmp/x.txt").length →
      lookupFS ([] : FS) ((parsePath "/tmp/x.txt").take k) = none
      ∨ lookupFS ([] : FS) ((parsePath "/tmp/x.txt").take k) = some Entry.dir := by
    intro k _
    left
    rfl
  exact ⟨⟨by decide, by decide, hh⟩,
    write_read_delete_roundtrip [] "/tmp/x.txt" "hi" (by decide) (by decide) hh⟩

/-! ### Claim C1: the error taxonomy -/

/-- The last character of any string of the form `prefix ++ "'"` is the
closing single quote. -/
theorem append_quote_getLast (t : String) : (t ++ "'").data.getLast? = some '\'' := by
  obtain ⟨l⟩ := t
  show (l ++ ['\'']).getLast? = some '\''
  exact List.getLast?_concat l

/-- Claim C1 counterexample: on a filesystem where "a" is an existing regular
file, list_directory "a" raises NotADirectoryError, which has no dedicated
handler clause and is caught by the generic wrapper, so the result is
"Error in 'list_directory': Path is not a directory: a" — not a string of the
form "Error: <human description> - '<path>'". -/
theorem list_directory_generic_error_on_file :
    (list_directory "a" [(["a"], Entry.file "x")]).1
        = "Error in 'list_directory': Path is not a directory: a"
    ∧ ¬ ∃ d : String, (list_directory "a" [(["a"], Entry.file "x")]).1
        = "Error: " ++ d ++ " - '" ++ "a" ++ "'" := by
  refine ⟨by decide, ?_⟩
  rintro ⟨d, hd⟩
  have h1 : (list_directory "a" [(["a"], Entry.file "x")]).1.data.getLast? = some 'a' := by
    decide
  rw [hd, append_quote_getLast] at h1
  exact absurd h1 (by decide)

/-- Claim C1 (amended): the three fault classes with dedicated handler
clauses — path-not-found, permission-denied, path-is-a-directory — are each
converted to the descriptive string "Error: <human description> - '<path>'";
the not-a-directory fault has no dedicated clause, so list_directory on an
existing non-directory path is caught by the generic wrapper and yields
"Error in 'list_directory': <exception text>" instead. -/
theorem error_normalization_amended :
    (∀ op p m, handle_file_operation op p (Except.error (PyExc.fileNotFound m))
        = "Error: File not found - '" ++ p ++ "'")
    ∧ (∀ op p m, handle_file_operation op p (Except.error (PyExc.permissionDenied m))
        = "Error: Permission denied - '" ++ p ++ "'")
    ∧ (∀ op p m, handle_file_operation op p (Except.error (PyExc.isADirectory m))
        = "Error: Path is a directory, not a file - '" ++ p ++ "'")
    ∧ (∀ fs dp, existsB fs (parsePath dp) = true → isDirB fs (parsePath dp) = false →
        list_directory dp fs
          = ("Error in 'list_directory': Path is not a directory: " ++ dp, fs)) := by
  refine ⟨fun op p m => rfl, fun op p m => rfl, fun op p m => rfl, fun fs dp he hd => ?_⟩
  simp [list_directory, he, hd, handle_file_operation, pyStr]
  rw [← String.append_assoc]
  exact congrArg (fun s => s ++ dp) (by decide)

/-- Witness for C1 (amended), at the file "a" listed as a directory. -/
theorem error_normalization_amended_witness :
    existsB [(["a"], Entry.file "x")] (parsePath "a") = true
    ∧ isDirB [(["a"], Entry.file "x")] (parsePath "a") = false
    ∧ list_directory "a" [(["a"], Entry.file "x")]
      = ("Error in 'list_directory': Path is not a directory: " ++ "a",
         [(["a"], Entry.file "x")]) :=
  ⟨by decide, by decide,
    error_normalization_amended.2.2.2 [(["a"], Entry.file "x")] "a" (by decide) (by decide)⟩

/-! ### Claim C8: directory listing -/

theorem itemOf_name (c : String × Entry) : (itemOf c).name = c.1 := by
  obtain ⟨n, e⟩ := c
  cases e <;> rfl

/-- Claim C8: for every existing directory, list returns the JSON rendering
of the {name, type, size} entries of its children sorted by name (each file
tagged "file" with its byte size, each directory tagged "directory" with
null size), every child contributing exactly its entry. -/
theorem list_directory_sorted_json (fs : FS) (dp : String)
    (he : existsB fs (parsePath dp) = true)
    (hd : isDirB fs (parsePath dp) = true) :
    list_directory dp fs = (pyJsonDumps (itemsOf fs (parsePath dp)), fs)
    ∧ itemsOf fs (parsePath dp) = (sortByName (childrenOf fs (parsePath dp))).map itemOf
    ∧ (itemsOf fs (parsePath dp)).Pairwise (fun i j => strLeB i.name.data j.name.data = true)
    ∧ (sortByName (childrenOf fs (parsePath dp))).Perm (childrenOf fs (parsePath dp))
    ∧ ∀ c ∈ childrenOf fs (parsePath dp), itemOf c ∈ itemsOf fs (parsePath dp) := by
  refine ⟨by simp [list_directory, he, hd, handle_file_operation], rfl, ?_,
    List.perm_insertionSort nameLe _, ?_⟩
  · have hs : List.Sorted nameLe (sortByName (childrenOf fs (parsePath dp))) :=
      List.sorted_insertionSort nameLe _
    rw [itemsOf]
    refine List.Pairwise.map itemOf ?_ hs
    intro a b hab
    rw [itemOf_name, itemOf_name]
    exact hab
  · intro c hc
    rw [itemsOf]
    exact List.mem_map_of_mem itemOf (((List.perm_insertionSort nameLe _).mem_iff).mpr hc)

/-- Witness for C8 on the spec's example: directory "d" containing the
5-byte file "a.txt" and the subdirectory "b"; the rendered items are
"a.txt" as a file of size 5 followed by "b" as a directory with null size. -/
theorem list_directory_sorted_json_witness :
    existsB [(["d"], Entry.dir), (["d", "a.txt"], Entry.file "hello"), (["d", "b"], Entry.dir)]
        (parsePath "d") = true
    ∧ isDirB [(["d"], Entry.dir), (["d", "a.txt"], Entry.file "hello"), (["d", "b"], Entry.dir)]
        (parsePath "d") = true
    ∧ itemsOf [(["d"], Entry.dir), (["d", "a.txt"], Entry.file "hello"), (["d", "b"], Entry.dir)]
        (parsePath "d")
      = [Item.mk "a.txt" "file" (some 5), Item.mk "b" "directory" none]
    ∧ (list_directory "d"
          [(["d"], Entry.dir), (["d", "a.txt"], Entry.file "hello"), (["d", "b"], Entry.dir)]
        = (pyJsonDumps (itemsOf
            [(["d"], Entry.dir), (["d", "a.txt"], Entry.file "hello"), (["d", "b"], Entry.dir)]
            (parsePath "d")),
           [(["d"], Entry.dir), (["d", "a.txt"], Entry.file "hello"), (["d", "b"], Entry.dir)])
      ∧ itemsOf [(["d"], Entry.dir), (["d", "a.txt"], Entry.file "hello"),
            (["d", "b"], Entry.dir)] (parsePath "d")
        = (sortByName (childrenOf [(["d"], Entry.dir), (["d", "a.txt"], Entry.file "hello"),
            (["d", "b"], Entry.dir)] (parsePath "d"))).map itemOf
      ∧ (itemsOf [(["d"], Entry.dir), (["d", "a.txt"], Entry.file "hello"),
            (["d", "b"], Entry.dir)] (parsePath "d")).Pairwise
          (fun i j => strLeB i.name.data j.name.data = true)
      ∧ (sortByName (childrenOf [(["d"], Entry.dir), (["d", "a.txt"], Entry.file "hello"),
            (["d", "b"], Entry.dir)] (parsePath "d"))).Perm
          (childrenOf [(["d"], Entry.dir), (["d", "a.txt"], Entry.file "hello"),
            (["d", "b"], Entry.dir)] (parsePath "d"))
      ∧ ∀ c ∈ childrenOf [(["d"], Entry.dir), (["d", "a.txt"], Entry.file "hello"),
            (["d", "b"], Entry.dir)] (parsePath "d"),
          itemOf c ∈ itemsOf [(["d"], Entry.dir), (["d", "a.txt"], Entry.file "hello"),
            (["d", "b"], Entry.dir)] (parsePath "d")) :=
  ⟨by decide, by decide, by decide,
    list_directory_sorted_json
      [(["d"], Entry.dir), (["d", "a.txt"], Entry.file "hello"), (["d", "b"], Entry.dir)]
      "d" (by decide) (by decide)⟩

/-! ### Claim C2: the turn structure of the loop -/

/-- Number of tool-role messages in a history. -/
def toolMsgCount (l : List Msg) : Nat :=
  (l.filter (fun m => (callIdOf m).isSome)).length

theorem toolMsgCount_append (l1 l2 : List Msg) :
    toolMsgCount (l1 ++ l2) = toolMsgCount l1 + toolMsgCount l2 := by
  simp [toolMsgCount, List.filter_append]

theorem toolMsgCount_assistant (a : Option String) (tcs : List ToolCall) :
    toolMsgCount [Msg.assistant a tcs] = 0 := by
  simp [toolMsgCount, callIdOf]

theorem toolMsgCount_resultMsgs (tcs : List ToolCall) (fs : FS) :
    toolMsgCount (resultMsgs tcs fs) = tcs.length := by
  rw [toolMsgCount, List.filter_eq_self.mpr, resultMsgs_length]
  intro m hm
  obtain ⟨id, c, he, _⟩ := resultMsgs_mem tcs fs m hm
  rw [he]
  simp [callIdOf]

/-- A chat-completion oracle that requests a tool call in every response. -/
def loopingModel : Model := fun _ =>
  { content := some "more", toolCalls := [{ id := "c9", req := ToolReq.read "zzz" }] }

/-- Claim C2 counterexample: with a model that requests a tool call in every
response, the turn still ends after one round: the follow-up response (made
on the history without the final answer) carries a tool-call request, yet the
loop appends its text as the final answer, executes only the first round's
single call (one tool message), and made exactly 2 model calls. -/
theorem turn_stops_despite_tool_calls :
    (loopingModel ((processTurn loopingModel [] []).1.dropLast)).toolCalls ≠ []
    ∧ (processTurn loopingModel [] []).1.getLast? = some (Msg.assistant (some "more") [])
    ∧ toolMsgCount (processTurn loopingModel [] []).1 = 1
    ∧ (processTurn loopingModel [] []).2.2 = 2 :=
  ⟨by decide, by decide, by decide, by decide⟩

/-- Claim C2 (amended): each turn makes at most two model calls; a response
without tool calls is appended as the final answer directly; a response with
tool calls leads to exactly those calls being executed, one follow-up model
call, and that follow-up's text appended as the final (tool-call-free)
assistant message regardless of its own tool-call requests. -/
theorem turn_single_round (model : Model) (msgs : List Msg) (fs : FS)
    (out : List Msg) (fs2 : FS) (n : Nat)
    (hrun : processTurn model msgs fs = (out, fs2, n)) :
    n ≤ 2
    ∧ toolMsgCount out = toolMsgCount msgs + (model msgs).toolCalls.length
    ∧ (∃ c, out.getLast? = some (Msg.assistant c []))
    ∧ ((model msgs).toolCalls = [] →
        n = 1 ∧ out = msgs ++ [Msg.assistant (model msgs).content []])
    ∧ ((model msgs).toolCalls ≠ [] → n = 2) := by
  by_cases hc : (model msgs).toolCalls.isEmpty
  · have hnil : (model msgs).toolCalls = [] := by
      simpa [List.isEmpty_iff] using hc
    have hrun' : processTurn model msgs fs
        = (msgs ++ [Msg.assistant (model msgs).content []], fs, 1) := by
      simp [processTurn, hc]
    have heq := hrun'.symm.trans hrun
    obtain ⟨ho, hf, hn⟩ := Prod.mk.injEq .. |>.mp heq |>.imp id (Prod.mk.injEq .. |>.mp)
    refine ⟨by omega, ?_, ?_, fun _ => ⟨by omega, ho.symm⟩, fun hne => absurd hnil hne⟩
    · rw [← ho, toolMsgCount_append, toolMsgCount_assistant, hnil]
      simp
    · exact ⟨(model msgs).content, by rw [← ho]; exact List.getLast?_concat msgs⟩
  · have hne : (model msgs).toolCalls ≠ [] := by
      simpa [List.isEmpty_iff] using hc
    have hrun' : processTurn model msgs fs
        = (((msgs ++ [Msg.assistant (model msgs).content (model msgs).toolCalls])
              ++ resultMsgs (model msgs).toolCalls fs)
            ++ [Msg.assistant (model ((msgs
                  ++ [Msg.assistant (model msgs).content (model msgs).toolCalls])
                ++ resultMsgs (model msgs).toolCalls fs)).content []],
           finalFS (model msgs).toolCalls fs, 2) := by
      simp [processTurn, hc, execCalls_eq]
    have heq := hrun'.symm.trans hrun
    obtain ⟨ho, hf, hn⟩ := Prod.mk.injEq .. |>.mp heq |>.imp id (Prod.mk.injEq .. |>.mp)
    refine ⟨by omega, ?_, ?_, fun hnil => absurd hnil hne, fun _ => by omega⟩
    · rw [← ho, toolMsgCount_append, toolMsgCount_append, toolMsgCount_append,
        toolMsgCount_assistant, toolMsgCount_assistant, toolMsgCount_resultMsgs]
      omega
    · refine ⟨(model ((msgs ++ [Msg.assistant (model msgs).content (model msgs).toolCalls])
          ++ resultMsgs (model msgs).toolCalls fs)).content, ?_⟩
      rw [← ho]
      exact List.getLast?_concat _

/-- A chat-completion oracle that answers directly, without tool calls. -/
def plainModel : Model := fun _ => { content := some "hi", toolCalls := [] }

/-- Witness for C2 (amended): a turn with a tool-call-free response. -/
theorem turn_single_round_witness :
    processTurn plainModel [] [] = ([Msg.assistant (some "hi") []], [], 1)
    ∧ (1 ≤ 2
      ∧ toolMsgCount [Msg.assistant (some "hi") []]
          = toolMsgCount [] + (plainModel []).toolCalls.length
      ∧ (∃ c, ([Msg.assistant (some "hi") []] : List Msg).getLast?
          = some (Msg.assistant c []))
      ∧ ((plainModel []).toolCalls = [] →
          1 = 1 ∧ [Msg.assistant (some "hi") []]
            = [] ++ [Msg.assistant (plainModel []).content []])
      ∧ ((plainModel []).toolCalls ≠ [] → 1 = 2)) :=
  ⟨by decide, turn_single_round plainModel [] [] [Msg.assistant (some "hi") []] [] 1 (by decide)⟩

/-! ### Claim C3: ordered tool execution and the conversation invariant -/

/-- Claim C3: when the model's response carries tool calls, the turn appends
the assistant message carrying the tool-call list first, then exactly one
tool-role message per request — with the matching toolCallId, in request
order — and the follow-up model call receives the history with all results
appended; the invariant that every tool-role message has a matching prior
assistant message is preserved. -/
theorem turn_tool_messages_ordered (model : Model) (msgs : List Msg) (fs : FS)
    (out : List Msg) (fs2 : FS) (n : Nat)
    (hrun : processTurn model msgs fs = (out, fs2, n))
    (hcalls : (model msgs).toolCalls ≠ []) :
    out = ((msgs ++ [Msg.assistant (model msgs).content (model msgs).toolCalls])
            ++ resultMsgs (model msgs).toolCalls fs)
          ++ [Msg.assistant (model ((msgs
                ++ [Msg.assistant (model msgs).content (model msgs).toolCalls])
              ++ resultMsgs (model msgs).toolCalls fs)).content []]
    ∧ (resultMsgs (model msgs).toolCalls fs).map callIdOf
        = (model msgs).toolCalls.map (fun tc => some tc.id)
    ∧ (resultMsgs (model msgs).toolCalls fs).length = (model msgs).toolCalls.length
    ∧ (wfConv msgs → wfConv out) := by
  have hc : (model msgs).toolCalls.isEmpty = false := by
    simpa [List.isEmpty_iff] using hcalls
  have hrun' : processTurn model msgs fs
      = (((msgs ++ [Msg.assistant (model msgs).content (model msgs).toolCalls])
            ++ resultMsgs (model msgs).toolCalls fs)
          ++ [Msg.assistant (model ((msgs
                ++ [Msg.assistant (model msgs).content (model msgs).toolCalls])
              ++ resultMsgs (model msgs).toolCalls fs)).content []],
         finalFS (model msgs).toolCalls fs, 2) := by
    simp [processTurn, hc, execCalls_eq]
  have heq := hrun'.symm.trans hrun
  obtain ⟨ho, _⟩ := Prod.mk.injEq .. |>.mp heq
  refine ⟨ho.symm, resultMsgs_ids (model msgs).toolCalls fs,
    resultMsgs_length (model msgs).toolCalls fs, ?_⟩
  intro hwf
  rw [← ho]
  refine wfConv_append_nonTool _ _ rfl ?_
  have hmsgs1 : wfConv (msgs ++ [Msg.assistant (model msgs).content (model msgs).toolCalls]) :=
    wfConv_append_nonTool _ _ rfl hwf
  have hres := wfConv_execCalls (model msgs).toolCalls
    (msgs ++ [Msg.assistant (model msgs).content (model msgs).toolCalls]) fs hmsgs1 ?_
  · rw [execCalls_eq] at hres
    exact hres
  · intro tc htc
    refine ⟨msgs.length, (model msgs).content, (model msgs).toolCalls, ?_, ?_⟩
    · exact List.get?_concat_length msgs _
    · exact List.mem_map_of_mem ToolCall.id htc

/-- An oracle requesting one read of a missing file, then answering. -/
def singleCallModel : Model := fun ms =>
  if ms.isEmpty then
    { content := none, toolCalls := [{ id := "c1", req := ToolReq.read "nope" }] }
  else { content := some "done", toolCalls := [] }

/-- Witness for C3: one turn with a single tool call, starting from the
empty history and empty filesystem. -/
theorem turn_tool_messages_ordered_witness :
    (processTurn singleCallModel [] []
        = ([Msg.assistant none [{ id := "c1", req := ToolReq.read "nope" }],
            Msg.tool "c1" "Error: File not found - 'nope'",
            Msg.assistant (some "done") []], [], 2)
      ∧ (singleCallModel []).toolCalls ≠ [])
    ∧ ([Msg.assistant none [{ id := "c1", req := ToolReq.read "nope" }],
        Msg.tool "c1" "Error: File not found - 'nope'",
        Msg.assistant (some "done") []]
        = (([] ++ [Msg.assistant (singleCallModel []).content (singleCallModel []).toolCalls])
            ++ resultMsgs (singleCallModel []).toolCalls [])
          ++ [Msg.assistant (singleCallModel (([]
                ++ [Msg.assistant (singleCallModel []).content (singleCallModel []).toolCalls])
              ++ resultMsgs (singleCallModel []).toolCalls [])).content []]
      ∧ (resultMsgs (singleCallModel []).toolCalls []).map callIdOf
          = (singleCallModel []).toolCalls.map (fun tc => some tc.id)
      ∧ (resultMsgs (singleCallModel []).toolCalls []).length
          = (singleCallModel []).toolCalls.length
      ∧ (wfConv [] → wfConv [Msg.assistant none [{ id := "c1", req := ToolReq.read "nope" }],
          Msg.tool "c1" "Error: File not found - 'nope'",
          Msg.assistant (some "done") []])) :=
  ⟨⟨by decide, by decide⟩,
    turn_tool_messages_ordered singleCallModel [] []
      [Msg.assistant none [{ id := "c1", req := ToolReq.read "nope" }],
       Msg.tool "c1" "Error: File not found - 'nope'",
       Msg.assistant (some "done") []] [] 2 (by decide) (by decide)⟩

/-! ### Claim C10: user-input handling -/

/-- Claim C10: user input is stripped before any check; the session ends
exactly on the stripped, lowercased tokens "quit" and "exit"; stripped-empty
input appends no message and makes no model call; otherwise the stripped
text is appended as the user message and the turn proceeds. -/
theorem input_handling (model : Model) (raw : String) (msgs : List Msg) (fs : FS) :
    (runInput model raw msgs fs = none
      ↔ (pyLower (pyStrip raw) = "quit" ∨ pyLower (pyStrip raw) = "exit"))
    ∧ (pyStrip raw = "" → runInput model raw msgs fs = some (msgs, fs, 0))
    ∧ (∀ t, classifyInput raw = InputAction.proceed t → t = pyStrip raw)
    ∧ ((pyLower (pyStrip raw) ≠ "quit" ∧ pyLower (pyStrip raw) ≠ "exit" ∧ pyStrip raw ≠ "") →
        runInput model raw msgs fs
          = some (processTurn model (msgs ++ [Msg.user (pyStrip raw)]) fs)) := by
  by_cases hq : pyLower (pyStrip raw) = "quit" ∨ pyLower (pyStrip raw) = "exit"
  · refine ⟨by simp [runInput, classifyInput, hq], ?_, ?_, ?_⟩
    · intro he
      rw [he] at hq
      exact absurd hq (by decide)
    · intro t ht
      rw [classifyInput] at ht
      simp [hq] at ht
    · rintro ⟨h1, h2, _⟩
      rcases hq with hq | hq
      · exact absurd hq h1
      · exact absurd hq h2
  · by_cases he : pyStrip raw = ""
    · have hql : ¬ (pyLower "" = "quit" ∨ pyLower "" = "exit") := by decide
      refine ⟨by simp [runInput, classifyInput, hq, he, hql], ?_, ?_, ?_⟩
      · intro _
        simp [runInput, classifyInput, hq, he, hql]
      · intro t ht
        rw [classifyInput] at ht
        simp [hq, he, hql] at ht
      · rintro ⟨_, _, h3⟩
        exact absurd he h3
    · refine ⟨by simp [runInput, classifyInput, hq, he], ?_, ?_, ?_⟩
      · intro hee
        exact absurd hee he
      · intro t ht
        rw [classifyInput] at ht
        simp [hq, he] at ht
        exact ht.symm
      · intro _
        simp [runInput, classifyInput, hq, he]

/-- Witness for C10: whitespace-only input (ASCII spaces, or a lone
no-break space) is skipped without any model call; "  QuIt " and
"quit\u00A0" (quit followed by a no-break space, stripped like the real
`str.strip()`) terminate; " hello " proceeds with the stripped text. -/
theorem input_handling_witness :
    (pyStrip "   " = ""
      ∧ runInput plainModel "   " [] [] = some ([], [], 0))
    ∧ runInput plainModel "  QuIt " [] [] = none
    ∧ runInput plainModel "quit\u00A0" [] [] = none
    ∧ (pyStrip "\u00A0" = ""
      ∧ runInput plainModel "\u00A0" [] [] = some ([], [], 0))
    ∧ (pyLower (pyStrip " hello ") ≠ "quit" ∧ pyLower (pyStrip " hello ") ≠ "exit"
        ∧ pyStrip " hello " ≠ ""
      ∧ runInput plainModel " hello " [] []
          = some (processTurn plainModel ([] ++ [Msg.user (pyStrip " hello ")]) [])) :=
  ⟨⟨by decide, (input_handling plainModel "   " [] []).2.1 (by decide)⟩,
    (input_handling plainModel "  QuIt " [] []).1.mpr (by decide),
    (input_handling plainModel "quit\u00A0" [] []).1.mpr (by decide),
    ⟨by decide, (input_handling plainModel "\u00A0" [] []).2.1 (by decide)⟩,
    by decide, by decide, by decide,
    (input_handling plainModel " hello " [] []).2.2.2 ⟨by decide, by decide, by decide⟩⟩

/-! ### Claim C4: schema translation -/

/-- Claim C4 (amended): for every tool whose input schema's `properties`
entry, when present, is a JSON object, the translation succeeds and yields a
function spec whose parameters carry `required` equal to exactly the declared
property names (in declaration order), `additionalProperties` false, and a
`strict` flag true; when `properties` is present but not an object, the
translation raises (an AttributeError) instead of producing a spec. -/
theorem schema_translation_amended :
    (∀ tool : MCPTool,
      (alookup tool.inputSchema "properties" = none
        ∨ ∃ kvs, alookup tool.inputSchema "properties" = some (Json.obj kvs)) →
      ∃ j fj pj, build_openai_tool_schema tool = Except.ok j
        ∧ jGet j "function" = some fj
        ∧ jGet fj "parameters" = some pj
        ∧ jGet pj "required" = some (Json.arr ((propKeys tool.inputSchema).map Json.str))
        ∧ jGet pj "additionalProperties" = some (Json.bool false)
        ∧ jGet fj "strict" = some (Json.bool true))
    ∧ (∀ (tool : MCPTool) (v : Json), alookup tool.inputSchema "properties" = some v →
        (∀ kvs, v ≠ Json.obj kvs) →
        build_openai_tool_schema tool
          = Except.error "AttributeError: object has no attribute keys") := by
  have hkey : ∀ (schema : List (String × Json)),
      alookup (aset schema "additionalProperties" (Json.bool false)) "properties"
        = alookup schema "properties" :=
    fun schema => alookup_aset_ne schema "additionalProperties" "properties"
      (Json.bool false) (by decide)
  have haP : ∀ (schema : List (String × Json)) (r : Json),
      alookup (aset (aset schema "additionalProperties" (Json.bool false)) "required" r)
          "additionalProperties" = some (Json.bool false) := by
    intro schema r
    rw [alookup_aset_ne _ _ _ _ (by decide)]
    exact alookup_aset_self schema "additionalProperties" (Json.bool false)
  constructor
  · intro tool hprops
    rcases hprops with hnone | ⟨kvs, hobj⟩
    · refine ⟨mkFunc tool (aset (aset tool.inputSchema "additionalProperties" (Json.bool false))
          "required" (Json.arr [])),
        funcObj tool (aset (aset tool.inputSchema "additionalProperties" (Json.bool false))
          "required" (Json.arr [])),
        Json.obj (aset (aset tool.inputSchema "additionalProperties" (Json.bool false))
          "required" (Json.arr [])), ?_, rfl, rfl, ?_, ?_, rfl⟩
      · rw [build_openai_tool_schema]
        rw [hkey tool.inputSchema, hnone]
      · show alookup (aset (aset tool.inputSchema "additionalProperties" (Json.bool false))
          "required" (Json.arr [])) "required" = _
        rw [alookup_aset_self, propKeys, hnone]
        rfl
      · exact haP tool.inputSchema (Json.arr [])
    · refine ⟨mkFunc tool (aset (aset tool.inputSchema "additionalProperties" (Json.bool false))
          "required" (Json.arr ((kvs.map Prod.fst).map Json.str))),
        funcObj tool (aset (aset tool.inputSchema "additionalProperties" (Json.bool false))
          "required" (Json.arr ((kvs.map Prod.fst).map Json.str))),
        Json.obj (aset (aset tool.inputSchema "additionalProperties" (Json.bool false))
          "required" (Json.arr ((kvs.map Prod.fst).map Json.str))), ?_, rfl, rfl, ?_, ?_, rfl⟩
      · rw [build_openai_tool_schema]
        rw [hkey tool.inputSchema, hobj]
      · show alookup (aset (aset tool.inputSchema "additionalProperties" (Json.bool false))
          "required" (Json.arr ((kvs.map Prod.fst).map Json.str))) "required" = _
        rw [alookup_aset_self, propKeys, hobj]
      · exact haP tool.inputSchema (Json.arr ((kvs.map Prod.fst).map Json.str))
  · intro tool v hv hnotobj
    rw [build_openai_tool_schema]
    rw [hkey tool.inputSchema, hv]
    cases v with
    | null => rfl
    | bool b => rfl
    | num n => rfl
    | str s => rfl
    | arr elems => rfl
    | obj kvs => exact absurd rfl (hnotobj kvs)

/-- Claim C4 counterexample: a tool whose schema declares `properties` as the
number 5 (a malformed schema).  `list(props.keys())` raises AttributeError,
so the translation fails rather than "never fails". -/
theorem schema_translation_fails_on_malformed :
    build_openai_tool_schema
        { name := "t", description := none, inputSchema := [("properties", Json.num 5)] }
      = Except.error "AttributeError: object has no attribute keys" := rfl

/-- A well-formed example tool for the schema-translation witness. -/
def c4Tool : MCPTool :=
  { name := "read_file",
    description := some "Read and return the contents of a file.",
    inputSchema :=
      [("type", Json.str "object"),
       ("properties", Json.obj
         [("file_path", Json.obj [("type", Json.str "string")])])] }

/-- Witness for C4 (amended) at a concrete tool with one declared property. -/
theorem schema_translation_amended_witness :
    (alookup c4Tool.inputSchema "properties" = none
      ∨ ∃ kvs, alookup c4Tool.inputSchema "properties" = some (Json.obj kvs))
    ∧ ∃ j fj pj, build_openai_tool_schema c4Tool = Except.ok j
      ∧ jGet j "function" = some fj
      ∧ jGet fj "parameters" = some pj
      ∧ jGet pj "required" = some (Json.arr ((propKeys c4Tool.inputSchema).map Json.str))
      ∧ jGet pj "additionalProperties" = some (Json.bool false)
      ∧ jGet fj "strict" = some (Json.bool true) :=
  ⟨Or.inr ⟨[("file_path", Json.obj [("type", Json.str "string")])], rfl⟩,
    schema_translation_amended.1 c4Tool
      (Or.inr ⟨[("file_path", Json.obj [("type", Json.str "string")])], rfl⟩)⟩
